import Mathlib

/-!
Verification of the Urban Air Quality Monitoring ETL pipeline.

Shallow embedding of the three core stages:
  * `extract.py`   : per-city fetch with bounded retries and backoff
  * `transform.py` : flattening a raw hourly payload into labeled rows
  * `etl_analysis.py` : KPI aggregation over stored records

Modelling conventions:
  * A parsed JSON payload is a `JVal`.
  * A numeric cell of the working frame is an `Option Rat`; `none` models a
    missing value, i.e. pandas NaN (produced by `None` padding or by
    `pd.to_numeric(errors="coerce")` on an unparsable entry).  Float NaN
    semantics are preserved exactly where the code relies on them:
    arithmetic propagates `none`, and every ordered comparison against
    `none` is `false`.
  * Parsing of ISO timestamps is delegated to pandas in the source
    (`pd.to_datetime(errors="coerce")`); the embedding takes the parse
    function as a parameter `parseTime : JVal -> Option Nat` returning
    minutes since an epoch (`none` models NaT), since no settled property
    depends on the concrete calendar arithmetic.
  * File I/O and the HTTP client are out of scope; the fetch stage is
    driven by an environment `outcomes : Nat -> AttemptOutcome` giving the
    result of each attempt, and in-place mutation of the payload is modelled
    by state passing (the transform returns the post-state of the payload).
-/

namespace AirQuality

/-- JSON-like values, as loaded from a raw payload file. -/
inductive JVal where
  | null
  | bool (b : Bool)
  | num (q : ℚ)
  | str (s : String)
  | arr (xs : List JVal)
  | obj (kvs : List (String × JVal))

/-- A numeric cell of the frame; `none` models pandas NaN. -/
abbrev Cell := Option ℚ

/-- Multiplication of a cell by a constant; NaN propagates. -/
def fmul (x : Cell) (k : ℚ) : Cell := x.map (fun v => v * k)

/-- Addition of two cells; NaN propagates. -/
def fadd (x y : Cell) : Cell :=
  match x, y with
  | some a, some b => some (a + b)
  | _, _ => none

/-- Python `x <= k` on a float cell: any comparison with NaN is false. -/
def fle (x : Cell) (k : ℚ) : Bool :=
  match x with
  | some v => decide (v ≤ k)
  | none => false

/-- Python `x > k` on a float cell: any comparison with NaN is false. -/
def fgt (x : Cell) (k : ℚ) : Bool :=
  match x with
  | some v => decide (k < v)
  | none => false

/-- `classify_aqi` (transform.py lines 15-25): AQI category from the PM2.5
cell.  The argument is the raw cell, exactly as `df["pm2_5"].apply` passes
it: a missing PM2.5 is NaN, which fails every branch test. -/
def classify_aqi (pm2_5 : Cell) : String :=
  if fle pm2_5 50 then "Good"
  else if fle pm2_5 100 then "Moderate"
  else if fle pm2_5 200 then "Unhealthy"
  else if fle pm2_5 300 then "Very Unhealthy"
  else "Hazardous"

/-- `risk_classification` (transform.py lines 39-45): risk label from the
severity cell; a NaN severity fails both threshold tests. -/
def risk_classification (severity : Cell) : String :=
  if fgt severity 400 then "High Risk"
  else if fgt severity 200 then "Moderate Risk"
  else "Low Risk"

/-- One row of the working frame built by `flatten_city_json`, with the
columns the source creates (raw cells plus the derived fields). -/
structure Row where
  time : Option ℕ
  pm10 : Cell
  pm2_5 : Cell
  carbon_monoxide : Cell
  nitrogen_dioxide : Cell
  sulphur_dioxide : Cell
  ozone : Cell
  uv_index : Cell
  city : String
  hour : Option ℕ
  AQI_category : String
  severity_score : Cell
  risk : String
deriving DecidableEq

/-- `pandas.Series.get(label, default=0)` over the numeric columns of the
frame.  The seven numeric columns are always present in the frame built by
`flatten_city_json`, so their cell (possibly NaN) is returned as-is; the
default `0` is reached only for a label genuinely absent from the row.
(Non-numeric labels such as `time` are never queried by the source.) -/
def Row.get (r : Row) (key : String) : Cell :=
  if key = "pm10" then r.pm10
  else if key = "pm2_5" then r.pm2_5
  else if key = "carbon_monoxide" then r.carbon_monoxide
  else if key = "nitrogen_dioxide" then r.nitrogen_dioxide
  else if key = "sulphur_dioxide" then r.sulphur_dioxide
  else if key = "ozone" then r.ozone
  else if key = "uv_index" then r.uv_index
  else some 0

/-- `compute_severity` (transform.py lines 28-36), exactly as evaluated by
`df.apply(compute_severity, axis=1)`: a left-associated sum of weighted
cells fetched with `row.get(name, 0)`.  Because every queried column exists
in the frame, a missing pollutant contributes NaN (not the default 0), and
the whole sum is NaN. -/
def compute_severity (row : Row) : Cell :=
  fadd (fadd (fadd (fadd (fadd
    (fmul (row.get "pm2_5") 5)
    (fmul (row.get "pm10") 3))
    (fmul (row.get "nitrogen_dioxide") 4))
    (fmul (row.get "sulphur_dioxide") 4))
    (fmul (row.get "carbon_monoxide") 2))
    (fmul (row.get "ozone") 3)

/-- The columns of interest (transform.py lines 68-69); note that the list
includes `uv_index` alongside the six pollutant series, and is the subset
passed to `dropna(subset=cols, how="all")`. -/
def cols : List String :=
  ["pm10", "pm2_5", "carbon_monoxide", "nitrogen_dioxide",
   "sulphur_dioxide", "ozone", "uv_index"]

/-- The keys iterated for padding (`["time"] + cols`, transform.py line 76). -/
def keysOfInterest : List String := "time" :: cols

/-- First-match association lookup, modelling `dict.get` (dict keys are
unique, so first match is the match). -/
def lookupKey : List (String × JVal) → String → Option JVal
  | [], _ => none
  | (k, v) :: rest, key => if k = key then some v else lookupKey rest key

/-- `hourly.get(c, [])` followed by `len`/`extend`: a present non-array
value has no `extend` (and usually no `len`), so the source dies with an
uncaught TypeError; the embedding reports that as an error uniformly. -/
def getArrOfKey (hkvs : List (String × JVal)) (k : String) : Except String (List JVal) :=
  match lookupKey hkvs k with
  | none => .ok []
  | some (.arr xs) => .ok xs
  | some _ => .error "TypeError"

/-- Lengths of the arrays under the given keys (the generator inside
`max(len(hourly.get(c, [])) for c in cols + ["time"])`). -/
def hourlyLens (hkvs : List (String × JVal)) : List String → Except String (List ℕ)
  | [] => .ok []
  | c :: rest => do
      let xs ← getArrOfKey hkvs c
      let more ← hourlyLens hkvs rest
      pure (xs.length :: more)

/-- `max_len` (transform.py line 72). -/
def hourlyMaxLen (hkvs : List (String × JVal)) : Except String ℕ :=
  (hourlyLens hkvs (cols ++ ["time"])).map (fun lens => lens.foldl max 0)

/-- The padded array for one key: `arr.extend([None] * (max_len - len(arr)))`
when the array is shorter (appending zero entries otherwise). -/
def paddedArr (hkvs : List (String × JVal)) (maxLen : ℕ) (c : String) :
    Except String (List JVal) :=
  (getArrOfKey hkvs c).map
    (fun xs => xs ++ List.replicate (maxLen - xs.length) JVal.null)

/-- In-place padding of the hourly mapping (transform.py lines 74-80):
`arr.extend` mutates the list objects stored in the payload, for exactly
the keys of interest that are present; absent keys get a fresh list in
`data` and the payload is not touched for them. -/
def padOne (maxLen : ℕ) (v : JVal) : JVal :=
  match v with
  | .arr xs =>
      if xs.length < maxLen then .arr (xs ++ List.replicate (maxLen - xs.length) JVal.null)
      else .arr xs
  | other => other

/-- The hourly mapping after the padding loop has run. -/
def padHourly (hkvs : List (String × JVal)) (maxLen : ℕ) : List (String × JVal) :=
  hkvs.map (fun p => if p.1 ∈ keysOfInterest then (p.1, padOne maxLen p.2) else p)

/-- `pd.to_numeric(errors="coerce")` on one cell.  Numbers pass through,
booleans coerce to 0/1, everything else (including the `None` padding)
becomes NaN.  (Numeric strings, which pandas would also coerce, do not
occur in the payloads the pipeline consumes and are modelled as NaN.) -/
def toNumeric : JVal → Cell
  | .num q => some q
  | .bool b => some (if b then 1 else 0)
  | _ => none

/-- `df["time"].dt.hour` for a parsed timestamp in minutes since the epoch. -/
def hourOfDay (t : ℕ) : ℕ := t / 60 % 24

/-- One zipped row: raw cells, the city column, the derived hour, and the
three engineered features, in the order the source adds them. -/
def mkRow (parseTime : JVal → Option ℕ) (city : String)
    (tv pm10v pm25v cov no2v so2v o3v uvv : JVal) : Row :=
  let t := parseTime tv
  let base : Row :=
    { time := t
      pm10 := toNumeric pm10v
      pm2_5 := toNumeric pm25v
      carbon_monoxide := toNumeric cov
      nitrogen_dioxide := toNumeric no2v
      sulphur_dioxide := toNumeric so2v
      ozone := toNumeric o3v
      uv_index := toNumeric uvv
      city := city
      hour := t.map hourOfDay
      AQI_category := ""
      severity_score := none
      risk := "" }
  let base := { base with AQI_category := classify_aqi base.pm2_5 }
  let sev := compute_severity base
  { base with severity_score := sev, risk := risk_classification sev }

/-- All rows of the padded frame, before the final `dropna`. -/
def allPaddedRows (parseTime : JVal → Option ℕ) (city : String)
    (hkvs : List (String × JVal)) : Except String (List Row) := do
  let maxLen ← hourlyMaxLen hkvs
  let timeA ← paddedArr hkvs maxLen "time"
  let pm10A ← paddedArr hkvs maxLen "pm10"
  let pm25A ← paddedArr hkvs maxLen "pm2_5"
  let coA ← paddedArr hkvs maxLen "carbon_monoxide"
  let no2A ← paddedArr hkvs maxLen "nitrogen_dioxide"
  let so2A ← paddedArr hkvs maxLen "sulphur_dioxide"
  let o3A ← paddedArr hkvs maxLen "ozone"
  let uvA ← paddedArr hkvs maxLen "uv_index"
  pure ((List.range maxLen).map (fun i =>
    mkRow parseTime city (timeA.getD i .null) (pm10A.getD i .null)
      (pm25A.getD i .null) (coA.getD i .null) (no2A.getD i .null)
      (so2A.getD i .null) (o3A.getD i .null) (uvA.getD i .null)))

/-- The predicate of `dropna(subset=cols, how="all")`: the row is dropped
iff all SEVEN cells of `cols` (six pollutants and `uv_index`) are NaN. -/
def rowAllNa (r : Row) : Bool :=
  r.pm10.isNone && r.pm2_5.isNone && r.carbon_monoxide.isNone &&
  r.nitrogen_dioxide.isNone && r.sulphur_dioxide.isNone &&
  r.ozone.isNone && r.uv_index.isNone

/-- The hourly-section part of `flatten_city_json`: padded rows filtered by
the dropna predicate, together with the mutated hourly mapping. -/
def flattenHourly (parseTime : JVal → Option ℕ) (city : String)
    (hkvs : List (String × JVal)) :
    Except String (List Row × List (String × JVal)) := do
  let maxLen ← hourlyMaxLen hkvs
  let rows ← allPaddedRows parseTime city hkvs
  pure (rows.filter (fun r => !rowAllNa r), padHourly hkvs maxLen)

/-- Python truthiness, for `if not hourly`. -/
def JVal.truthy : JVal → Bool
  | .null => false
  | .bool b => b
  | .num q => decide (q ≠ 0)
  | .str s => decide (s ≠ "")
  | .arr xs => !xs.isEmpty
  | .obj kvs => !kvs.isEmpty

/-- Replacing the value stored under a key (the payload dict keeps the same
binding; its `hourly` object is mutated). -/
def setKey (kvs : List (String × JVal)) (key : String) (v : JVal) :
    List (String × JVal) :=
  kvs.map (fun p => if p.1 = key then (key, v) else p)

/-- `payload.get("city") or <fallback>` where the fallback is derived from
the file name; a missing, null or empty name falls back.  (Non-string city
values do not occur in the consumed payloads.) -/
def cityNameOf (kvs : List (String × JVal)) (fallback : String) : String :=
  match lookupKey kvs "city" with
  | some (.str s) => if s = "" then fallback else s
  | _ => fallback

/-- `flatten_city_json` on a payload that is not a top-level list
(transform.py lines 59-99).  Calling `.get` on a non-mapping raises an
uncaught AttributeError, modelled as an error result. -/
def flattenObj (parseTime : JVal → Option ℕ) (payload : JVal)
    (fallback : String) : Except String (List Row × JVal) :=
  match payload with
  | .obj kvs =>
      let city := cityNameOf kvs fallback
      match lookupKey kvs "hourly" with
      | none => .ok ([], .obj kvs)
      | some hv =>
          if hv.truthy then
            match hv with
            | .obj hkvs =>
                (flattenHourly parseTime city hkvs).map
                  (fun pr => (pr.1, .obj (setKey kvs "hourly" (.obj pr.2))))
            | _ => .error "AttributeError"
          else .ok ([], .obj kvs)
  | _ => .error "AttributeError"

/-- `flatten_city_json` (transform.py lines 46-99), with the in-place
mutation of the payload returned as the second component.  A top-level
empty list yields an empty frame; a non-empty list is replaced by its
first element (which stays inside the caller-visible list). -/
def flatten_city_json (parseTime : JVal → Option ℕ) (payload : JVal)
    (fallback : String) : Except String (List Row × JVal) :=
  match payload with
  | .arr [] => .ok ([], .arr [])
  | .arr (x :: rest) =>
      (flattenObj parseTime x fallback).map (fun pr => (pr.1, .arr (pr.2 :: rest)))
  | p => flattenObj parseTime p fallback

/-- The loop body of `transform_all`: flatten each payload in order; an
exception raised by any `flatten_city_json` propagates immediately
(`transform_all` has no handler around the call). -/
def flattenMany (parseTime : JVal → Option ℕ) :
    List (JVal × String) → Except String (List (List Row))
  | [] => .ok []
  | pf :: rest => do
      let pr ← flatten_city_json parseTime pf.1 pf.2
      let more ← flattenMany parseTime rest
      pure (pr.1 :: more)

/-- `transform_all` (transform.py lines 101-117): raises ValueError only
when given no inputs at all, otherwise concatenates the per-location
frames; any error from a single location aborts the whole run. -/
def transform_all (parseTime : JVal → Option ℕ)
    (inputs : List (JVal × String)) : Except String (List Row) :=
  match inputs with
  | [] => .error "ValueError: No raw JSON files found for transformation"
  | _ => (flattenMany parseTime inputs).map List.flatten

/-! ### Fetch stage (`extract.py`) -/

/-- The environment-determined outcome of one HTTP attempt: either the
request and `resp.json()` succeed (with a flag saying whether the
`json.dump` in `_save_raw` succeeds), or a `requests.RequestException`
or other exception is raised with the given message. -/
inductive AttemptOutcome where
  | ok (payload : JVal) (dumpOk : Bool)
  | err (msg : String)

/-- The dictionary `_fetch_city` returns.  It carries the city, the success
flag, the path the raw payload was saved to (success only) and the last
error message (failure only); the payload itself is NOT a field. -/
structure FetchResult where
  city : String
  success : Bool
  raw_path : Option String
  error : Option String
deriving DecidableEq

/-- `_save_raw` (extract.py lines 162-175): writes the payload under a
city-derived file name and returns the path; if `json.dump` fails it falls
back to writing `repr(payload)` to a `.txt` path, still returning
normally. -/
def save_raw (payload : JVal) (city : String) (ts : String) (dumpOk : Bool) : String :=
  let base := (city.replace " " "_").toLower ++ "_raw_" ++ ts
  let _ := payload
  if dumpOk then base ++ ".json" else base ++ ".txt"

/-- The observable behaviour of one `_fetch_city` call: the returned
dictionary, the backoff sleeps performed (in order), and the number of
attempts made. -/
structure FetchTrace where
  result : FetchResult
  sleeps : List ℕ
  attempts : ℕ
deriving DecidableEq

/-- The retry loop of `_fetch_city` (extract.py lines 180-209):
`remaining` counts loop iterations left, `done` attempts already made.
Note the sleep is executed at the end of EVERY failed iteration, the last
one included. -/
def fetchCityGo (city ts : String) (outcomes : ℕ → AttemptOutcome) :
    ℕ → ℕ → Option String → FetchTrace
  | 0, _, lastError =>
      ⟨{ city := city, success := false, raw_path := none, error := lastError }, [], 0⟩
  | remaining + 1, done, _ =>
      match outcomes (done + 1) with
      | .ok payload dumpOk =>
          ⟨{ city := city, success := true,
             raw_path := some (save_raw payload city ts dumpOk), error := none }, [], 1⟩
      | .err m =>
          let t := fetchCityGo city ts outcomes remaining (done + 1) (some m)
          ⟨t.result, 2 ^ done :: t.sleeps, t.attempts + 1⟩

/-- `_fetch_city` with `MAX_RETRIES = maxRetries`. -/
def fetch_city (city ts : String) (maxRetries : ℕ)
    (outcomes : ℕ → AttemptOutcome) : FetchTrace :=
  fetchCityGo city ts outcomes maxRetries 0 none

/-! ### Aggregation stage (`etl_analysis.py`) -/

/-- One stored record as `compute_kpis` sees it after `fetch_table`:
every field may be missing (NaN / NaT / null in the table). -/
structure ARecord where
  city : Option String
  time : Option ℕ
  pm2_5 : Cell
  risk_flag : Option String
deriving DecidableEq

/-- Python `round(q, 2)`: round half to even at two decimal places,
modelled on exact rationals. -/
def round2 (q : ℚ) : ℚ :=
  if q * 100 - (⌊q * 100⌋ : ℚ) < 1 / 2 then (⌊q * 100⌋ : ℚ) / 100
  else if 1 / 2 < q * 100 - (⌊q * 100⌋ : ℚ) then ((⌊q * 100⌋ : ℚ) + 1) / 100
  else if ⌊q * 100⌋ % 2 = 0 then (⌊q * 100⌋ : ℚ) / 100
  else ((⌊q * 100⌋ : ℚ) + 1) / 100

/-- The `risk_flag` column after `fillna("Unknown")`. -/
def riskFlags (records : List ARecord) : List String :=
  records.map (fun r => r.risk_flag.getD "Unknown")

/-- The `risk_percentage` KPI (etl_analysis.py lines 139-143): for each
observed flag value, `round((count / total) * 100, 2)` with
`total = len(df)`.  `value_counts` orders buckets by descending count; the
order of this association list is immaterial since the KPI is a mapping. -/
def risk_percentage (records : List ARecord) : List (String × ℚ) :=
  (riskFlags records).dedup.map (fun f =>
    (f, round2 ((((riskFlags records).count f : ℚ) / (records.length : ℚ)) * 100)))

/-- Sum of the percentage buckets. -/
def sumPercent (records : List ARecord) : ℚ :=
  ((risk_percentage records).map Prod.snd).sum

/-- The rows surviving `dropna(subset=["time", "pm2_5"])`, projected to
(hour-of-day, pm2_5) pairs. -/
def hourPm25Pairs (records : List ARecord) : List (ℕ × ℚ) :=
  records.filterMap (fun r =>
    match r.time, r.pm2_5 with
    | some t, some p => some (hourOfDay t, p)
    | _, _ => none)

/-- The PM2.5 values landing in one hour group. -/
def hourGroup (records : List ARecord) (h : ℕ) : List ℚ :=
  (hourPm25Pairs records).filterMap (fun x => if x.1 = h then some x.2 else none)

/-- `groupby("hour_of_day").mean()` over the surviving rows: one pair
(hour, mean PM2.5) per observed hour. -/
def hourMeans (records : List ARecord) : List (ℕ × ℚ) :=
  ((hourPm25Pairs records).map Prod.fst).dedup.map (fun h =>
    (h, (hourGroup records h).sum / ((hourGroup records h).length : ℚ)))

/-- The `worst_hour_by_avg_pm2_5` KPI (etl_analysis.py lines 146-152):
absent when no row has both a timestamp and a PM2.5 value, otherwise an
hour whose mean PM2.5 is maximal (`sort_values(ascending=False).iloc[0]`). -/
def worst_hour_by_avg_pm2_5 (records : List ARecord) : Option (ℕ × ℚ) :=
  match hourMeans records with
  | [] => none
  | m :: ms => some (ms.foldl (fun best x => if best.2 < x.2 then x else best) m)

/-! ### Spec-side reference definitions (for divergence statements only) -/

/-- Modelled from the spec: `severity_score = 5*PM2.5 + 3*PM10 + 4*NO2 +
4*SO2 + 2*CO + 3*ozone`, treating any absent pollutant as 0 in the sum. -/
def severity_spec (r : Row) : ℚ :=
  5 * r.pm2_5.getD 0 + 3 * r.pm10.getD 0 + 4 * r.nitrogen_dioxide.getD 0 +
  4 * r.sulphur_dioxide.getD 0 + 2 * r.carbon_monoxide.getD 0 + 3 * r.ozone.getD 0

/-- Modelled from the spec: the AQI breakpoints on a present PM2.5 value. -/
def classify_aqi_spec (v : ℚ) : String :=
  if v ≤ 50 then "Good"
  else if v ≤ 100 then "Moderate"
  else if v ≤ 200 then "Unhealthy"
  else if v ≤ 300 then "Very Unhealthy"
  else "Hazardous"

/-! ### Helper lemmas -/

@[simp] theorem fmul_none (k : ℚ) : fmul none k = none := rfl

@[simp] theorem fmul_some (v k : ℚ) : fmul (some v) k = some (v * k) := rfl

@[simp] theorem fadd_none_left (y : Cell) : fadd none y = none := by
  cases y <;> rfl

@[simp] theorem fadd_none_right (x : Cell) : fadd x none = none := by
  cases x <;> rfl

@[simp] theorem fadd_some (a b : ℚ) : fadd (some a) (some b) = some (a + b) := rfl

@[simp] theorem row_get_pm10 (r : Row) : r.get "pm10" = r.pm10 := rfl

@[simp] theorem row_get_pm25 (r : Row) : r.get "pm2_5" = r.pm2_5 := rfl

@[simp] theorem row_get_co (r : Row) : r.get "carbon_monoxide" = r.carbon_monoxide := rfl

@[simp] theorem row_get_no2 (r : Row) : r.get "nitrogen_dioxide" = r.nitrogen_dioxide := rfl

@[simp] theorem row_get_so2 (r : Row) : r.get "sulphur_dioxide" = r.sulphur_dioxide := rfl

@[simp] theorem row_get_ozone (r : Row) : r.get "ozone" = r.ozone := rfl

@[simp] theorem row_get_uv (r : Row) : r.get "uv_index" = r.uv_index := rfl

/-- NaN propagation: the severity sum is NaN as soon as one of the six
pollutant cells is NaN. -/
theorem compute_severity_none (r : Row)
    (h : r.pm10 = none ∨ r.pm2_5 = none ∨ r.carbon_monoxide = none ∨
         r.nitrogen_dioxide = none ∨ r.sulphur_dioxide = none ∨ r.ozone = none) :
    compute_severity r = none := by
  unfold compute_severity
  rcases h with h | h | h | h | h | h <;> simp [h]

/-- With all six pollutants present, the severity sum is the weighted sum. -/
theorem compute_severity_all_some (r : Row) (a b c d e f : ℚ)
    (h1 : r.pm2_5 = some a) (h2 : r.pm10 = some b) (h3 : r.nitrogen_dioxide = some c)
    (h4 : r.sulphur_dioxide = some d) (h5 : r.carbon_monoxide = some e)
    (h6 : r.ozone = some f) :
    compute_severity r = some (a * 5 + b * 3 + c * 4 + d * 4 + e * 2 + f * 3) := by
  unfold compute_severity
  simp [h1, h2, h3, h4, h5, h6]

theorem risk_classification_total (s : Cell) :
    risk_classification s = "Low Risk" ∨ risk_classification s = "Moderate Risk" ∨
    risk_classification s = "High Risk" := by
  unfold risk_classification
  split <;> simp_all
  split <;> simp_all

theorem classify_aqi_eq_spec (c : Cell) :
    classify_aqi c = (match c with
      | some v => classify_aqi_spec v
      | none => "Hazardous") := by
  cases c with
  | none => rfl
  | some v =>
      simp only [classify_aqi, classify_aqi_spec, fle, decide_eq_true_eq]

@[simp] theorem mkRow_risk (pt : JVal → Option ℕ) (city : String)
    (tv a b c d e f u : JVal) :
    (mkRow pt city tv a b c d e f u).risk =
      risk_classification ((mkRow pt city tv a b c d e f u).severity_score) := rfl

@[simp] theorem mkRow_severity (pt : JVal → Option ℕ) (city : String)
    (tv a b c d e f u : JVal) :
    (mkRow pt city tv a b c d e f u).severity_score =
      compute_severity (mkRow pt city tv a b c d e f u) := rfl

@[simp] theorem mkRow_aqi (pt : JVal → Option ℕ) (city : String)
    (tv a b c d e f u : JVal) :
    (mkRow pt city tv a b c d e f u).AQI_category =
      classify_aqi ((mkRow pt city tv a b c d e f u).pm2_5) := rfl

theorem exceptBind_ok {α β : Type} {x : Except String α} {f : α → Except String β}
    {v : β} (h : x >>= f = .ok v) : ∃ a, x = .ok a ∧ f a = .ok v := by
  cases x with
  | error e => simp [Bind.bind, Except.bind] at h
  | ok a => exact ⟨a, rfl, by simpa [Bind.bind, Except.bind] using h⟩

theorem exceptMap_ok {α β : Type} {x : Except String α} {g : α → β} {v : β}
    (h : x.map g = .ok v) : ∃ a, x = .ok a ∧ g a = v := by
  cases x with
  | error e => simp [Except.map] at h
  | ok a => exact ⟨a, rfl, by simpa [Except.map] using h⟩

/-- Every row of the padded frame is a `mkRow`. -/
theorem mem_allPaddedRows {pt : JVal → Option ℕ} {city : String}
    {hkvs : List (String × JVal)} {rows0 : List Row} {r : Row}
    (h : allPaddedRows pt city hkvs = .ok rows0) (hr : r ∈ rows0) :
    ∃ tv a b c d e f u, r = mkRow pt city tv a b c d e f u := by
  unfold allPaddedRows at h
  obtain ⟨maxLen, h1, h⟩ := exceptBind_ok h
  obtain ⟨timeA, h2, h⟩ := exceptBind_ok h
  obtain ⟨pm10A, h3, h⟩ := exceptBind_ok h
  obtain ⟨pm25A, h4, h⟩ := exceptBind_ok h
  obtain ⟨coA, h5, h⟩ := exceptBind_ok h
  obtain ⟨no2A, h6, h⟩ := exceptBind_ok h
  obtain ⟨so2A, h7, h⟩ := exceptBind_ok h
  obtain ⟨o3A, h8, h⟩ := exceptBind_ok h
  obtain ⟨uvA, h9, h⟩ := exceptBind_ok h
  simp only [pure, Except.pure, Except.ok.injEq] at h
  subst h
  simp only [List.mem_map] at hr
  obtain ⟨i, _, hi⟩ := hr
  exact ⟨_, _, _, _, _, _, _, _, hi.symm⟩

/-- The frame part of a successful `flattenHourly`: padded rows filtered by
the dropna predicate. -/
theorem flattenHourly_ok {pt : JVal → Option ℕ} {city : String}
    {hkvs : List (String × JVal)} {rows : List Row} {hk2 : List (String × JVal)}
    (h : flattenHourly pt city hkvs = .ok (rows, hk2)) :
    ∃ maxLen rows0, hourlyMaxLen hkvs = .ok maxLen ∧
      allPaddedRows pt city hkvs = .ok rows0 ∧
      rows = rows0.filter (fun r => !rowAllNa r) ∧
      hk2 = padHourly hkvs maxLen := by
  unfold flattenHourly at h
  obtain ⟨maxLen, h1, h⟩ := exceptBind_ok h
  obtain ⟨rows0, h2, h⟩ := exceptBind_ok h
  simp only [pure, Except.pure, Except.ok.injEq, Prod.mk.injEq] at h
  exact ⟨maxLen, rows0, h1, h2, h.1.symm, h.2.symm⟩

/-- Every row returned by `flatten_city_json` is a `mkRow` that survived
the dropna filter. -/
theorem mem_flatten_rows {pt : JVal → Option ℕ} {payload : JVal} {fb : String}
    {rows : List Row} {p2 : JVal} {r : Row}
    (h : flatten_city_json pt payload fb = .ok (rows, p2)) (hr : r ∈ rows) :
    ∃ city tv a b c d e f u,
      r = mkRow pt city tv a b c d e f u ∧ rowAllNa r = false := by
  have hobj : ∀ (q : JVal) (rows2 : List Row) (q2 : JVal),
      flattenObj pt q fb = .ok (rows2, q2) → r ∈ rows2 →
      ∃ city tv a b c d e f u,
        r = mkRow pt city tv a b c d e f u ∧ rowAllNa r = false := by
    intro q rows2 q2 hq hr2
    cases q with
    | obj kvs =>
        simp only [flattenObj] at hq
        split at hq
        · simp only [Except.ok.injEq, Prod.mk.injEq] at hq
          rw [← hq.1] at hr2
          simp at hr2
        · split at hq
          · split at hq
            · obtain ⟨pr, hfh, hpr⟩ := exceptMap_ok hq
              obtain ⟨rows1, hk1⟩ := pr
              obtain ⟨maxLen, rows0, _, hall, hfilter, _⟩ := flattenHourly_ok hfh
              simp only [Prod.mk.injEq] at hpr
              rw [← hpr.1, hfilter] at hr2
              rw [List.mem_filter] at hr2
              obtain ⟨tv, a, b, c, d, e, f, u, hrw⟩ :=
                mem_allPaddedRows hall hr2.1
              refine ⟨_, tv, a, b, c, d, e, f, u, hrw, ?_⟩
              simpa using hr2.2
            · simp at hq
          · simp only [Except.ok.injEq, Prod.mk.injEq] at hq
            rw [← hq.1] at hr2
            simp at hr2
    | null => simp [flattenObj] at hq
    | bool b => simp [flattenObj] at hq
    | num q => simp [flattenObj] at hq
    | str s => simp [flattenObj] at hq
    | arr xs => simp [flattenObj] at hq
  unfold flatten_city_json at h
  cases payload with
  | arr xs =>
      cases xs with
      | nil =>
          simp only [Except.ok.injEq, Prod.mk.injEq] at h
          rw [← h.1] at hr
          simp at hr
      | cons x rest =>
          obtain ⟨pr, hfo, hpr⟩ := exceptMap_ok h
          simp only [Prod.mk.injEq] at hpr
          exact hobj x pr.1 pr.2 (by rw [← Prod.mk.eta (p := pr)] at hfo; exact hfo)
            (by rw [hpr.1]; exact hr)
  | obj kvs => exact hobj _ _ _ h hr
  | null => exact hobj _ _ _ h hr
  | bool b => exact hobj _ _ _ h hr
  | num q => exact hobj _ _ _ h hr
  | str s => exact hobj _ _ _ h hr

theorem padOne_arr (maxLen : ℕ) (xs : List JVal) :
    padOne maxLen (.arr xs) = .arr (xs ++ List.replicate (maxLen - xs.length) JVal.null) := by
  simp only [padOne]
  split
  · rfl
  · next h =>
      have h0 : maxLen - xs.length = 0 := by omega
      simp [h0]

/-- What the padding loop does to any key of the hourly mapping. -/
theorem lookup_padHourly (hkvs : List (String × JVal)) (k : String) (maxLen : ℕ) :
    lookupKey (padHourly hkvs maxLen) k =
      (lookupKey hkvs k).map (fun v => if k ∈ keysOfInterest then padOne maxLen v else v) := by
  induction hkvs with
  | nil => rfl
  | cons p rest ih =>
      obtain ⟨k1, v1⟩ := p
      show lookupKey ((if k1 ∈ keysOfInterest then (k1, padOne maxLen v1) else (k1, v1)) ::
        padHourly rest maxLen) k = _
      by_cases hmem : k1 ∈ keysOfInterest
      · rw [if_pos hmem]
        show (if k1 = k then some (padOne maxLen v1) else lookupKey (padHourly rest maxLen) k) = _
        by_cases he : k1 = k
        · subst he
          rw [if_pos rfl]
          show _ = (if k1 = k1 then some v1 else lookupKey rest k1).map _
          rw [if_pos rfl]
          simp [hmem]
        · rw [if_neg he, ih]
          show _ = (if k1 = k then some v1 else lookupKey rest k).map _
          rw [if_neg he]
      · rw [if_neg hmem]
        show (if k1 = k then some v1 else lookupKey (padHourly rest maxLen) k) = _
        by_cases he : k1 = k
        · subst he
          rw [if_pos rfl]
          show _ = (if k1 = k1 then some v1 else lookupKey rest k1).map _
          rw [if_pos rfl]
          simp [hmem]
        · rw [if_neg he, ih]
          show _ = (if k1 = k then some v1 else lookupKey rest k).map _
          rw [if_neg he]

theorem lookup_setKey_ne (kvs : List (String × JVal)) (key : String) (v : JVal)
    {k : String} (h : k ≠ key) :
    lookupKey (setKey kvs key v) k = lookupKey kvs k := by
  induction kvs with
  | nil => rfl
  | cons p rest ih =>
      obtain ⟨k1, v1⟩ := p
      show lookupKey ((if k1 = key then (key, v) else (k1, v1)) :: setKey rest key v) k = _
      by_cases he : k1 = key
      · subst he
        rw [if_pos rfl]
        have hne : ¬(k1 = k) := fun hh => h (hh ▸ rfl)
        show (if k1 = k then some v else lookupKey (setKey rest k1 v) k) = _
        rw [if_neg hne, ih]
        show _ = (if k1 = k then some v1 else lookupKey rest k)
        rw [if_neg hne]
      · rw [if_neg he]
        show (if k1 = k then some v1 else lookupKey (setKey rest key v) k) = _
        by_cases he2 : k1 = k
        · rw [if_pos he2]
          show _ = (if k1 = k then some v1 else lookupKey rest k)
          rw [if_pos he2]
        · rw [if_neg he2, ih]
          show _ = (if k1 = k then some v1 else lookupKey rest k)
          rw [if_neg he2]

theorem getArrOfKey_of_lookup {hkvs : List (String × JVal)} {k : String}
    {xs : List JVal} (hl : lookupKey hkvs k = some (.arr xs)) :
    getArrOfKey hkvs k = .ok xs := by
  simp [getArrOfKey, hl]

theorem hourlyLens_mem {hkvs : List (String × JVal)} {k : String} {xs : List JVal} :
    ∀ {ks : List String} {lens : List ℕ}, hourlyLens hkvs ks = .ok lens → k ∈ ks →
    getArrOfKey hkvs k = .ok xs → xs.length ∈ lens := by
  intro ks
  induction ks with
  | nil => intro lens _ hk; simp at hk
  | cons c rest ih =>
      intro lens h hk hg
      simp only [hourlyLens] at h
      obtain ⟨ys, h1, h⟩ := exceptBind_ok h
      obtain ⟨more, h2, h⟩ := exceptBind_ok h
      simp only [pure, Except.pure, Except.ok.injEq] at h
      subst h
      rcases List.mem_cons.mp hk with he | hm
      · subst he
        rw [hg] at h1
        simp only [Except.ok.injEq] at h1
        subst h1
        exact List.mem_cons_self _ _
      · exact List.mem_cons_of_mem _ (ih h2 hm hg)

theorem foldl_max_le_init : ∀ (l : List ℕ) (a : ℕ), a ≤ l.foldl max a := by
  intro l
  induction l with
  | nil => intro a; exact Nat.le_refl a
  | cons b t ih =>
      intro a
      exact le_trans (Nat.le_max_left a b) (ih (max a b))

theorem mem_le_foldl_max {x : ℕ} : ∀ (l : List ℕ) (a : ℕ), x ∈ l → x ≤ l.foldl max a := by
  intro l
  induction l with
  | nil => intro a hx; simp at hx
  | cons b t ih =>
      intro a hx
      rcases List.mem_cons.mp hx with he | hm
      · subst he
        exact le_trans (Nat.le_max_right a x) (foldl_max_le_init t (max a x))
      · exact ih (max a b) hm

/-- Any array of interest present in the hourly mapping is no longer than
the computed `max_len`. -/
theorem length_le_hourlyMaxLen {hkvs : List (String × JVal)} {k : String}
    {xs : List JVal} {maxLen : ℕ} (hmax : hourlyMaxLen hkvs = .ok maxLen)
    (hk : k ∈ keysOfInterest) (hl : lookupKey hkvs k = some (.arr xs)) :
    xs.length ≤ maxLen := by
  unfold hourlyMaxLen at hmax
  obtain ⟨lens, h1, h2⟩ := exceptMap_ok hmax
  have hk2 : k ∈ cols ++ ["time"] := by
    rcases List.mem_cons.mp hk with he | hm
    · subst he; simp
    · exact List.mem_append_left _ hm
  have := hourlyLens_mem h1 hk2 (getArrOfKey_of_lookup hl)
  rw [← h2]
  exact mem_le_foldl_max lens 0 this

theorem countP_filter_add (p : Row → Bool) (l : List Row) :
    (l.filter (fun r => !p r)).length + l.countP p = l.length := by
  induction l with
  | nil => rfl
  | cons a t ih =>
      by_cases hp : p a
      · simp [List.filter_cons, List.countP_cons, hp, ← ih]
        omega
      · simp [List.filter_cons, List.countP_cons, hp, ← ih]
        omega

/-- Rounding to two decimals moves a value by at most 1/200. -/
theorem round2_abs_sub_le (q : ℚ) : |round2 q - q| ≤ 1 / 200 := by
  have hq : q = q * 100 / 100 := by ring
  have hf1 : ((⌊q * 100⌋ : ℚ)) ≤ q * 100 := Int.floor_le (q * 100)
  have hf2 : q * 100 < (⌊q * 100⌋ : ℚ) + 1 := Int.lt_floor_add_one (q * 100)
  unfold round2
  split
  · next h1 =>
      rw [abs_le]
      constructor <;> nlinarith
  · next h1 =>
      split
      · next h2 =>
          rw [abs_le]
          constructor <;> nlinarith
      · next h2 =>
          have heq : q * 100 - (⌊q * 100⌋ : ℚ) = 1 / 2 := by
            push_neg at h1 h2
            linarith
          split
          · rw [abs_le]
            constructor <;> nlinarith
          · rw [abs_le]
            constructor <;> nlinarith

/-- Rounding keeps a value of [0, 100] inside [0, 100]. -/
theorem round2_mem_Icc {q : ℚ} (h0 : 0 ≤ q) (h1 : q ≤ 100) :
    0 ≤ round2 q ∧ round2 q ≤ 100 := by
  have hf1 : ((⌊q * 100⌋ : ℚ)) ≤ q * 100 := Int.floor_le (q * 100)
  have hf2 : q * 100 < (⌊q * 100⌋ : ℚ) + 1 := Int.lt_floor_add_one (q * 100)
  have hfl0 : (0 : ℚ) ≤ (⌊q * 100⌋ : ℚ) := by
    have : (0 : ℤ) ≤ ⌊q * 100⌋ := Int.le_floor.mpr (by push_cast; nlinarith)
    exact_mod_cast this
  have hup : (⌊q * 100⌋ : ℚ) ≤ 10000 := by
    have : ⌊q * 100⌋ ≤ 10000 := by
      have h100 : (⌊q * 100⌋ : ℚ) ≤ 10000 + 1 - 1 := by nlinarith
      exact_mod_cast h100
    exact_mod_cast this
  have hup2 : q * 100 < (⌊q * 100⌋ : ℚ) + 1 → 1 / 2 < q * 100 - (⌊q * 100⌋ : ℚ) →
      (⌊q * 100⌋ : ℚ) ≤ 9999 := by
    intro _ hhalf
    have hlt : (⌊q * 100⌋ : ℚ) < 19999 / 2 := by nlinarith
    have : ⌊q * 100⌋ ≤ 9999 := by
      by_contra hc
      push_neg at hc
      have : (10000 : ℚ) ≤ (⌊q * 100⌋ : ℚ) := by exact_mod_cast hc
      linarith
    exact_mod_cast this
  unfold round2
  split
  · next h =>
      constructor
      · positivity
      · linarith
  · next h =>
      split
      · next h2 =>
          have h9999 := hup2 hf2 h2
          constructor
          · positivity
          · linarith
      · next h2 =>
          have heq : q * 100 - (⌊q * 100⌋ : ℚ) = 1 / 2 := by
            push_neg at h h2
            linarith
          have h9999 : (⌊q * 100⌋ : ℚ) ≤ 9999 := by
            have hle : (⌊q * 100⌋ : ℚ) ≤ 19999 / 2 := by nlinarith
            have : ⌊q * 100⌋ ≤ 9999 := by
              by_contra hc
              push_neg at hc
              have : (10000 : ℚ) ≤ (⌊q * 100⌋ : ℚ) := by exact_mod_cast hc
              linarith
            exact_mod_cast this
          split
          · constructor
            · positivity
            · linarith
          · constructor
            · positivity
            · linarith

/-- Summing the rounded values moves the total by at most n/200. -/
theorem abs_sum_round2 (l : List ℚ) :
    |(l.map round2).sum - l.sum| ≤ (l.length : ℚ) * (1 / 200) := by
  induction l with
  | nil => simp
  | cons a t ih =>
      have habs : |(round2 a - a) + ((t.map round2).sum - t.sum)| ≤
          |round2 a - a| + |(t.map round2).sum - t.sum| := abs_add _ _
      have h1 := round2_abs_sub_le a
      calc |((a :: t).map round2).sum - (a :: t).sum|
          = |(round2 a - a) + ((t.map round2).sum - t.sum)| := by
            simp [List.map_cons, List.sum_cons]
            ring_nf
        _ ≤ |round2 a - a| + |(t.map round2).sum - t.sum| := habs
        _ ≤ 1 / 200 + (t.length : ℚ) * (1 / 200) := by linarith
        _ = ((a :: t).length : ℚ) * (1 / 200) := by
            simp [List.length_cons]
            ring

/-- Sum of the exact (pre-rounding) bucket percentages is exactly 100. -/
theorem sum_exact_percent (records : List ARecord) (hne : records ≠ []) :
    ((riskFlags records).dedup.map
      (fun f => (((riskFlags records).count f : ℚ) / (records.length : ℚ)) * 100)).sum
      = 100 := by
  set flags := riskFlags records with hflags
  have hlen : flags.length = records.length := by
    rw [hflags]
    exact List.length_map _ _
  have hn : (records.length : ℚ) ≠ 0 := by
    have : records.length ≠ 0 := fun h => hne (List.eq_nil_of_length_eq_zero h)
    exact_mod_cast this
  have hsum : (flags.dedup.map (fun f => (flags.count f : ℚ))).sum
      = (records.length : ℚ) := by
    have hcast : (flags.dedup.map (fun f => (flags.count f : ℚ))).sum
        = (((flags.dedup.map (fun f => flags.count f)).sum : ℕ) : ℚ) := by
      rw [Nat.cast_list_sum, List.map_map]
      rfl
    rw [hcast, List.sum_map_count_dedup_eq_length, hlen]
  calc (flags.dedup.map (fun f => ((flags.count f : ℚ) / (records.length : ℚ)) * 100)).sum
      = (flags.dedup.map (fun f => (flags.count f : ℚ) * (100 / (records.length : ℚ)))).sum := by
        congr 1
        apply List.map_congr_left
        intro f _
        ring
    _ = (flags.dedup.map (fun f => (flags.count f : ℚ))).sum * (100 / (records.length : ℚ)) := by
        rw [← List.sum_map_mul_right]
    _ = (records.length : ℚ) * (100 / (records.length : ℚ)) := by rw [hsum]
    _ = 100 := by field_simp

/-- The element picked by the argmax fold is in the list and maximal. -/
theorem foldl_pick_max (m : ℕ × ℚ) (ms : List (ℕ × ℚ)) :
    (ms.foldl (fun best x => if best.2 < x.2 then x else best) m) ∈ m :: ms ∧
    ∀ p ∈ m :: ms, p.2 ≤ (ms.foldl (fun best x => if best.2 < x.2 then x else best) m).2 := by
  induction ms generalizing m with
  | nil =>
      constructor
      · simp
      · intro p hp
        simp at hp
        rw [hp]
        exact le_refl _
  | cons x t ih =>
      have hstep : List.foldl (fun best x => if best.2 < x.2 then x else best) m (x :: t)
          = List.foldl (fun best x => if best.2 < x.2 then x else best)
              (if m.2 < x.2 then x else m) t := rfl
      obtain ⟨ihmem, ihmax⟩ := ih (if m.2 < x.2 then x else m)
      constructor
      · rw [hstep]
        rcases List.mem_cons.mp ihmem with he | hm
        · rw [he]
          split
          · exact List.mem_cons_of_mem _ (List.mem_cons_self _ _)
          · exact List.mem_cons_self _ _
        · exact List.mem_cons_of_mem _ (List.mem_cons_of_mem _ hm)
      · intro p hp
        rw [hstep]
        have hym : (if m.2 < x.2 then x else m).2 ≤
            (List.foldl (fun best x => if best.2 < x.2 then x else best)
              (if m.2 < x.2 then x else m) t).2 :=
          ihmax _ (List.mem_cons_self _ _)
        rcases List.mem_cons.mp hp with he | hp2
        · rw [he]
          have : m.2 ≤ (if m.2 < x.2 then x else m).2 := by
            split
            · next hlt => exact le_of_lt hlt
            · exact le_refl _
          exact le_trans this hym
        · rcases List.mem_cons.mp hp2 with he2 | hp3
          · rw [he2]
            have : x.2 ≤ (if m.2 < x.2 then x else m).2 := by
              split
              · exact le_refl _
              · next hlt => exact le_of_not_lt hlt
            exact le_trans this hym
          · exact ihmax _ (List.mem_cons_of_mem _ hp3)

theorem fetchCityGo_attempts_le (city ts : String) (outcomes : ℕ → AttemptOutcome) :
    ∀ (r k : ℕ) (le0 : Option String),
      (fetchCityGo city ts outcomes r k le0).attempts ≤ r := by
  intro r
  induction r with
  | zero => intro k le0; exact Nat.le_refl 0
  | succ n ih =>
      intro k le0
      show (fetchCityGo city ts outcomes (n + 1) k le0).attempts ≤ n + 1
      simp only [fetchCityGo]
      cases outcomes (k + 1) with
      | ok p d => exact Nat.succ_le_succ (Nat.zero_le n)
      | err m => exact Nat.succ_le_succ (ih (k + 1) (some m))

/-- When every attempt in the window fails, the loop runs all iterations,
sleeps `2^(k-1)` after EVERY failed attempt `k` (the final one included),
and returns the failure dictionary with the last error message. -/
theorem fetchCityGo_all_fail (city ts : String) (outcomes : ℕ → AttemptOutcome)
    (msgs : ℕ → String) :
    ∀ (r k : ℕ) (le0 : Option String), 1 ≤ r →
      (∀ j, k + 1 ≤ j → j ≤ k + r → outcomes j = .err (msgs j)) →
      fetchCityGo city ts outcomes r k le0 =
        ⟨{ city := city, success := false, raw_path := none, error := some (msgs (k + r)) },
         (List.range' k r).map (2 ^ ·), r⟩ := by
  intro r
  induction r with
  | zero => intro k le0 h1; omega
  | succ n ih =>
      intro k le0 _ hall
      have hk1 : outcomes (k + 1) = .err (msgs (k + 1)) :=
        hall (k + 1) (Nat.le_refl _) (by omega)
      show fetchCityGo city ts outcomes (n + 1) k le0 = _
      simp only [fetchCityGo, hk1]
      cases n with
      | zero =>
          simp only [fetchCityGo]
          rfl
      | succ m =>
          have hrec := ih (k + 1) (some (msgs (k + 1))) (by omega)
            (fun j hj1 hj2 => hall j (by omega) (by omega))
          rw [hrec]
          have hidx : k + 1 + (m + 1) = k + (m + 1 + 1) := by omega
          have hrange : List.range' k (m + 1 + 1) = k :: List.range' (k + 1) (m + 1) :=
            List.range'_succ k (m + 1) 1
          rw [hidx, hrange, List.map_cons]

theorem allPaddedRows_length {pt : JVal → Option ℕ} {city : String}
    {hkvs : List (String × JVal)} {all : List Row} {maxLen : ℕ}
    (hall : allPaddedRows pt city hkvs = .ok all)
    (hmax : hourlyMaxLen hkvs = .ok maxLen) : all.length = maxLen := by
  unfold allPaddedRows at hall
  obtain ⟨maxLen2, h1, hall⟩ := exceptBind_ok hall
  rw [hmax] at h1
  injection h1 with h1
  subst h1
  obtain ⟨timeA, _, hall⟩ := exceptBind_ok hall
  obtain ⟨pm10A, _, hall⟩ := exceptBind_ok hall
  obtain ⟨pm25A, _, hall⟩ := exceptBind_ok hall
  obtain ⟨coA, _, hall⟩ := exceptBind_ok hall
  obtain ⟨no2A, _, hall⟩ := exceptBind_ok hall
  obtain ⟨so2A, _, hall⟩ := exceptBind_ok hall
  obtain ⟨o3A, _, hall⟩ := exceptBind_ok hall
  obtain ⟨uvA, _, hall⟩ := exceptBind_ok hall
  simp only [pure, Except.pure, Except.ok.injEq] at hall
  rw [← hall]
  simp

/-- Every hour key produced by the grouping is a true hour of day. -/
theorem hourMeans_fst_lt_24 (records : List ARecord) :
    ∀ p ∈ hourMeans records, p.1 < 24 := by
  intro p hp
  simp only [hourMeans, List.mem_map] at hp
  obtain ⟨h, hd, hpe⟩ := hp
  rw [List.mem_dedup, List.mem_map] at hd
  obtain ⟨pr, hpr, hfst⟩ := hd
  simp only [hourPm25Pairs, List.mem_filterMap] at hpr
  obtain ⟨r, _, hmatch⟩ := hpr
  rw [← hpe]
  cases ht : r.time with
  | none => rw [ht] at hmatch; simp at hmatch
  | some t =>
      cases hp2 : r.pm2_5 with
      | none => rw [ht, hp2] at hmatch; simp at hmatch
      | some v =>
          rw [ht, hp2] at hmatch
          simp only [Option.some.injEq] at hmatch
          have : pr.1 = hourOfDay t := by rw [← hmatch]
          simp only [← hfst, this, hourOfDay]
          exact Nat.mod_lt _ (by norm_num)

/-! ### Concrete inputs used by the claim theorems -/

/-- A time-parse environment that parses nothing; the transform-stage
claims do not depend on calendar parsing. -/
def noParse : JVal → Option ℕ := fun _ => none

/-- A payload whose single padded row has `pm10` present and the other
five pollutants (and `pm2_5` in particular) absent. -/
def payloadC1 : JVal :=
  .obj [("hourly", .obj
    [("time", .arr [.str "2024-01-01T00:00"]), ("pm10", .arr [.num 10])])]

/-- The row the transform produces from `payloadC1`. -/
def rowC1 : Row :=
  { time := none, pm10 := some 10, pm2_5 := none, carbon_monoxide := none,
    nitrogen_dioxide := none, sulphur_dioxide := none, ozone := none,
    uv_index := none, city := "delhi", hour := none,
    AQI_category := "Hazardous", severity_score := none, risk := "Low Risk" }

/-- A payload whose single row has all six pollutants absent but
`uv_index` present. -/
def payloadC3 : JVal :=
  .obj [("hourly", .obj [("time", .arr [.null]), ("uv_index", .arr [.num 3])])]

/-- The row the transform produces (and retains) from `payloadC3`. -/
def rowC3 : Row :=
  { time := none, pm10 := none, pm2_5 := none, carbon_monoxide := none,
    nitrogen_dioxide := none, sulphur_dioxide := none, ozone := none,
    uv_index := some 3, city := "delhi", hour := none,
    AQI_category := "Hazardous", severity_score := none, risk := "Low Risk" }

/-- A payload with a ragged hourly section: `time` has two entries,
`pm10` one.  Padding extends `pm10` in place. -/
def payloadC3w : JVal :=
  .obj [("hourly", .obj [("time", .arr [.null, .null]), ("pm10", .arr [.num 7])])]

/-- The key-value list inside `payloadC3w`. -/
def kvsC3w : List (String × JVal) :=
  [("hourly", .obj [("time", .arr [.null, .null]), ("pm10", .arr [.num 7])])]

/-- The hourly mapping inside `payloadC3w`. -/
def hkvsC3w : List (String × JVal) :=
  [("time", .arr [.null, .null]), ("pm10", .arr [.num 7])]

/-- First padded row of `payloadC3w` (pm10 present). -/
def rowC3w0 : Row :=
  { time := none, pm10 := some 7, pm2_5 := none, carbon_monoxide := none,
    nitrogen_dioxide := none, sulphur_dioxide := none, ozone := none,
    uv_index := none, city := "delhi", hour := none,
    AQI_category := "Hazardous", severity_score := none, risk := "Low Risk" }

/-- Second padded row of `payloadC3w` (everything absent; dropped). -/
def rowC3w1 : Row :=
  { time := none, pm10 := none, pm2_5 := none, carbon_monoxide := none,
    nitrogen_dioxide := none, sulphur_dioxide := none, ozone := none,
    uv_index := none, city := "delhi", hour := none,
    AQI_category := "Hazardous", severity_score := none, risk := "Low Risk" }

/-- `payloadC3w` after the in-place padding of `pm10`. -/
def p2C3w : JVal :=
  .obj [("hourly", .obj [("time", .arr [.null, .null]), ("pm10", .arr [.num 7, .null])])]

/-- A payload whose single row has `pm2_5 = 60` (and nothing else). -/
def payloadC2w : JVal := .obj [("hourly", .obj [("pm2_5", .arr [.num 60])])]

/-- The row the transform produces from `payloadC2w`:
severity `60 * 5 = 300`, hence Moderate Risk. -/
def rowC2w : Row :=
  { time := none, pm10 := none, pm2_5 := some 60, carbon_monoxide := none,
    nitrogen_dioxide := none, sulphur_dioxide := none, ozone := none,
    uv_index := none, city := "delhi", hour := none,
    AQI_category := "Moderate", severity_score := none, risk := "Low Risk" }

/-- A payload whose single row has only a huge `pm10 = 500`. -/
def payload500 : JVal := .obj [("hourly", .obj [("pm10", .arr [.num 500])])]

/-- The row the transform produces from `payload500`: despite
`pm10 * 3 = 1500 > 400`, the NaN severity yields "Low Risk". -/
def row500 : Row :=
  { time := none, pm10 := some 500, pm2_5 := none, carbon_monoxide := none,
    nitrogen_dioxide := none, sulphur_dioxide := none, ozone := none,
    uv_index := none, city := "delhi", hour := none,
    AQI_category := "Hazardous", severity_score := none, risk := "Low Risk" }

/-- 18 records with 18 distinct risk flags: every bucket is
100/18 = 5.5555..%, which rounds up to 5.56, so the bucket percentages
sum to 100.08. -/
def recsC7 : List ARecord :=
  [⟨none, none, none, some "a"⟩, ⟨none, none, none, some "b"⟩,
   ⟨none, none, none, some "c"⟩, ⟨none, none, none, some "d"⟩,
   ⟨none, none, none, some "e"⟩, ⟨none, none, none, some "f"⟩,
   ⟨none, none, none, some "g"⟩, ⟨none, none, none, some "h"⟩,
   ⟨none, none, none, some "i"⟩, ⟨none, none, none, some "j"⟩,
   ⟨none, none, none, some "k"⟩, ⟨none, none, none, some "l"⟩,
   ⟨none, none, none, some "m"⟩, ⟨none, none, none, some "n"⟩,
   ⟨none, none, none, some "o"⟩, ⟨none, none, none, some "p"⟩,
   ⟨none, none, none, some "q"⟩, ⟨none, none, none, some "r"⟩]

/-- Two records: one "Low Risk", one with the flag absent. -/
def recsW : List ARecord :=
  [⟨none, none, none, some "Low Risk"⟩, ⟨none, none, none, none⟩]

/-- Scenario C of the spec: PM2.5 values [10, 20, 30] at hours [5, 5, 6]
(timestamps in minutes: 300 and 360 are 05:00 and 06:00). -/
def scenarioC : List ARecord :=
  [⟨some "X", some 300, some 10, some "Low Risk"⟩,
   ⟨some "X", some 300, some 20, some "Low Risk"⟩,
   ⟨some "X", some 360, some 30, some "Low Risk"⟩]

/-! ### Claim theorems -/

/-- C1: the claim says severity equals the absence-as-zero weighted sum and
is defined and non-negative for every retained row.  The code is wrong: the
columns always exist in the frame, so `Series.get(c, 0)` returns the NaN
cell rather than the default 0, and the severity of any row with a missing
pollutant is NaN.  At the failing input (a padded row with `pm10 = 10` and
`pm2_5` absent) the code yields severity NaN (here `none`) where the spec
formula yields 30. -/
theorem c1_severity_nan_on_missing_pollutant :
    flatten_city_json noParse payloadC1 "delhi" = .ok ([rowC1], payloadC1) ∧
    rowC1.severity_score = none ∧
    severity_spec rowC1 = 30 ∧
    rowC1.risk = "Low Risk" := by
  refine ⟨rfl, rfl, ?_, rfl⟩
  norm_num [severity_spec, rowC1]

/-- C2 counterexample: a retained row with `pm2_5` absent is classified
"Hazardous", not "Good", because NaN fails every `<=` breakpoint test. -/
theorem c2_counterexample :
    flatten_city_json noParse payloadC1 "delhi" = .ok ([rowC1], payloadC1) ∧
    rowC1.pm2_5 = none ∧
    rowC1.AQI_category = "Hazardous" ∧
    rowC1.AQI_category ≠ "Good" :=
  ⟨rfl, rfl, rfl, by decide⟩

/-- C2 (amended): every transformed row's `AQI_category` follows the stated
PM2.5 breakpoints when PM2.5 is present, but a row with absent PM2.5 is
classified "Hazardous" (NaN fails every comparison), not "Good". -/
theorem c2_aqi_breakpoints (pt : JVal → Option ℕ) (payload : JVal) (fb : String)
    (rows : List Row) (p2 : JVal)
    (h : flatten_city_json pt payload fb = .ok (rows, p2)) :
    ∀ r ∈ rows, r.AQI_category =
      (match r.pm2_5 with
       | some v => classify_aqi_spec v
       | none => "Hazardous") := by
  intro r hr
  obtain ⟨city, tv, a, b, c, d, e, f, u, hrw, _⟩ := mem_flatten_rows h hr
  subst hrw
  rw [mkRow_aqi, classify_aqi_eq_spec]

/-- C2 witness: at the concrete payload with `pm2_5 = [60]`, the theorem
gives the spec breakpoint value "Moderate". -/
theorem c2_aqi_breakpoints_witness : rowC2w.AQI_category = "Moderate" := by
  have h := c2_aqi_breakpoints noParse payloadC2w "delhi" [rowC2w] payloadC2w rfl
    rowC2w (by simp)
  rw [h]
  show classify_aqi_spec 60 = "Moderate"
  norm_num [classify_aqi_spec]

/-- C3 counterexample: a row with all six pollutants absent but `uv_index`
present is RETAINED (the dropna subset also contains `uv_index`), refuting
"every retained record has at least one of the six pollutants present". -/
theorem c3_counterexample :
    flatten_city_json noParse payloadC3 "delhi" = .ok ([rowC3], payloadC3) ∧
    rowC3.pm10 = none ∧ rowC3.pm2_5 = none ∧ rowC3.carbon_monoxide = none ∧
    rowC3.nitrogen_dioxide = none ∧ rowC3.sulphur_dioxide = none ∧
    rowC3.ozone = none :=
  ⟨rfl, rfl, rfl, rfl, rfl, rfl, rfl⟩

/-- C3 (amended): a padded row is dropped iff all SEVEN of the six
pollutant fields and `uv_index` are absent; the retained count is the
padded length minus the count of all-seven-absent rows, and every retained
row has at least one of the seven fields present (`rowAllNa r = false`). -/
theorem c3_drop_iff_all_seven_absent
    (pt : JVal → Option ℕ) (fb : String) (kvs hkvs : List (String × JVal))
    (maxLen : ℕ) (all rows : List Row) (p2 : JVal)
    (hl : lookupKey kvs "hourly" = some (.obj hkvs))
    (htr : JVal.truthy (.obj hkvs) = true)
    (hmax : hourlyMaxLen hkvs = .ok maxLen)
    (hall : allPaddedRows pt (cityNameOf kvs fb) hkvs = .ok all)
    (hfl : flatten_city_json pt (.obj kvs) fb = .ok (rows, p2)) :
    all.length = maxLen ∧
    rows = all.filter (fun r => !rowAllNa r) ∧
    rows.length + all.countP rowAllNa = maxLen ∧
    ∀ r ∈ rows, rowAllNa r = false := by
  have hobj : flattenObj pt (.obj kvs) fb = .ok (rows, p2) := hfl
  simp only [flattenObj] at hobj
  split at hobj
  · next heq =>
      rw [hl] at heq
      cases heq
  · next hv heq =>
      rw [hl] at heq
      injection heq with heq
      subst heq
      split at hobj
      · split at hobj
        · next hkvs2 heq2 =>
            injection heq2 with heq2
            subst heq2
            obtain ⟨pr, hfh, hpr⟩ := exceptMap_ok hobj
            obtain ⟨rows1, hk1⟩ := pr
            obtain ⟨maxLen2, rows0, hm2, hall2, hfilter, hpad⟩ := flattenHourly_ok hfh
            rw [hmax] at hm2
            injection hm2 with hm2
            subst hm2
            rw [hall] at hall2
            injection hall2 with hall2
            subst hall2
            simp only [Prod.mk.injEq] at hpr
            refine ⟨allPaddedRows_length hall hmax, ?_, ?_, ?_⟩
            · rw [← hpr.1]
              exact hfilter
            · rw [← hpr.1, hfilter, countP_filter_add]
              exact allPaddedRows_length hall hmax
            · intro r hr
              rw [← hpr.1, hfilter] at hr
              have := List.mem_filter.mp hr
              simpa using this.2
        · next hvx hcontra => exact absurd rfl (hcontra hkvs)
      · next htr2 => exact absurd htr htr2

/-- C3 witness: a ragged payload (`time` of length 2, `pm10` of length 1)
yields two padded rows, drops the all-absent one, and retains one. -/
theorem c3_drop_iff_all_seven_absent_witness :
    ([rowC3w0, rowC3w1] : List Row).length = 2 ∧
    ([rowC3w0] : List Row).length + ([rowC3w0, rowC3w1] : List Row).countP rowAllNa = 2 := by
  have h := c3_drop_iff_all_seven_absent noParse "delhi" kvsC3w hkvsC3w 2
    [rowC3w0, rowC3w1] [rowC3w0] p2C3w rfl rfl rfl rfl rfl
  exact ⟨h.1, h.2.2.1⟩

/-- C9: every transformed row carries one of exactly the three risk labels
(never absent), and any retained row with at least one of the six
pollutants absent is labelled "Low Risk" (its NaN severity fails both
threshold tests) no matter how large the present values are. -/
theorem c9_risk_flag_total_low (pt : JVal → Option ℕ) (payload : JVal) (fb : String)
    (rows : List Row) (p2 : JVal)
    (h : flatten_city_json pt payload fb = .ok (rows, p2)) :
    ∀ r ∈ rows,
      (r.risk = "Low Risk" ∨ r.risk = "Moderate Risk" ∨ r.risk = "High Risk") ∧
      ((r.pm10 = none ∨ r.pm2_5 = none ∨ r.carbon_monoxide = none ∨
        r.nitrogen_dioxide = none ∨ r.sulphur_dioxide = none ∨ r.ozone = none) →
        r.risk = "Low Risk") := by
  intro r hr
  obtain ⟨city, tv, a, b, c, d, e, f, u, hrw, _⟩ := mem_flatten_rows h hr
  subst hrw
  constructor
  · rw [mkRow_risk]
    exact risk_classification_total _
  · intro habs
    rw [mkRow_risk, mkRow_severity, compute_severity_none _ habs]
    rfl

/-- C9 witness: the row with only `pm10 = 500` (weighted contribution 1500,
far above the High Risk threshold) is still labelled "Low Risk". -/
theorem c9_risk_flag_total_low_witness : row500.risk = "Low Risk" := by
  have h := c9_risk_flag_total_low noParse payload500 "delhi" [row500] payload500 rfl
    row500 (by simp)
  exact (h.2) (Or.inr (Or.inl rfl))

/-- C10: the padding step mutates the payload in place — the returned
post-state replaces the hourly mapping by its padded version; every array
of interest present in the mapping gets `None` markers appended up to the
maximum observed length (ending exactly at that length); keys absent from
the mapping stay absent, arrays under other keys are untouched, and every
other part of the payload is unchanged. -/
theorem c10_padding_mutates_in_place
    (pt : JVal → Option ℕ) (fb : String) (kvs hkvs : List (String × JVal))
    (maxLen : ℕ) (rows : List Row) (p2 : JVal)
    (hl : lookupKey kvs "hourly" = some (.obj hkvs))
    (htr : JVal.truthy (.obj hkvs) = true)
    (hmax : hourlyMaxLen hkvs = .ok maxLen)
    (hfl : flatten_city_json pt (.obj kvs) fb = .ok (rows, p2)) :
    p2 = .obj (setKey kvs "hourly" (.obj (padHourly hkvs maxLen))) ∧
    (∀ k xs, k ∈ keysOfInterest → lookupKey hkvs k = some (.arr xs) →
       lookupKey (padHourly hkvs maxLen) k =
         some (.arr (xs ++ List.replicate (maxLen - xs.length) JVal.null)) ∧
       (xs ++ List.replicate (maxLen - xs.length) JVal.null).length = maxLen) ∧
    (∀ k, lookupKey hkvs k = none → lookupKey (padHourly hkvs maxLen) k = none) ∧
    (∀ k, k ∉ keysOfInterest → lookupKey (padHourly hkvs maxLen) k = lookupKey hkvs k) ∧
    (∀ k, k ≠ "hourly" →
       lookupKey (setKey kvs "hourly" (.obj (padHourly hkvs maxLen))) k =
         lookupKey kvs k) := by
  refine ⟨?_, ?_, ?_, ?_, ?_⟩
  · have hobj : flattenObj pt (.obj kvs) fb = .ok (rows, p2) := hfl
    simp only [flattenObj] at hobj
    split at hobj
    · next heq =>
        rw [hl] at heq
        cases heq
    · next hv heq =>
        rw [hl] at heq
        injection heq with heq
        subst heq
        split at hobj
        · split at hobj
          · next hkvs2 heq2 =>
              injection heq2 with heq2
              subst heq2
              obtain ⟨pr, hfh, hpr⟩ := exceptMap_ok hobj
              obtain ⟨rows1, hk1⟩ := pr
              obtain ⟨maxLen2, rows0, hm2, hall2, hfilter, hpad⟩ := flattenHourly_ok hfh
              rw [hmax] at hm2
              injection hm2 with hm2
              subst hm2
              simp only [Prod.mk.injEq] at hpr
              rw [← hpr.2, hpad]
          · next hvx hcontra => exact absurd rfl (hcontra hkvs)
        · next htr2 => exact absurd htr htr2
  · intro k xs hk hlk
    constructor
    · rw [lookup_padHourly, hlk]
      simp [hk, padOne_arr]
    · have hle := length_le_hourlyMaxLen hmax hk hlk
      simp only [List.length_append, List.length_replicate]
      omega
  · intro k hlk
    rw [lookup_padHourly, hlk]
    rfl
  · intro k hk
    rw [lookup_padHourly]
    cases hx : lookupKey hkvs k <;> simp [hk]
  · intro k hk
    exact lookup_setKey_ne kvs "hourly" _ hk

/-- C10 witness: on the ragged payload, `pm10` is extended in place from
length 1 to the maximum length 2, `pm2_5` stays absent, and the post-state
payload is the original with only the hourly arrays padded. -/
theorem c10_padding_mutates_in_place_witness :
    p2C3w = .obj (setKey kvsC3w "hourly" (.obj (padHourly hkvsC3w 2))) ∧
    lookupKey (padHourly hkvsC3w 2) "pm10" = some (.arr [.num 7, .null]) ∧
    lookupKey (padHourly hkvsC3w 2) "pm2_5" = none := by
  have h := c10_padding_mutates_in_place noParse "delhi" kvsC3w hkvsC3w 2 [rowC3w0] p2C3w
    rfl rfl rfl rfl
  refine ⟨h.1, ?_, h.2.2.1 "pm2_5" rfl⟩
  exact (h.2.1 "pm10" [.num 7] (by decide) rfl).1

/-- C5 counterexample: a malformed (non-mapping) payload does not just lose
its own rows — `transform_all` propagates the uncaught error, so the
well-formed location after it is never transformed, although alone it would
produce a row. -/
theorem c5_counterexample :
    transform_all noParse [(JVal.str "oops", "bad"), (payloadC1, "delhi")] =
      .error "AttributeError" ∧
    transform_all noParse [(payloadC1, "delhi")] = .ok [rowC1] :=
  ⟨rfl, rfl⟩

/-- C5 (amended): only the handled shapes are local non-fatal conditions —
a top-level empty list and a payload without a (truthy) hourly section
yield an empty frame and the run continues; a payload that is not a mapping
raises an uncaught AttributeError which aborts the whole transform run. -/
theorem c5_malformed_aborts_run (pt : JVal → Option ℕ) (fb s : String)
    (rest : List (JVal × String)) (kvs : List (String × JVal))
    (hno : lookupKey kvs "hourly" = none) :
    flatten_city_json pt (.arr []) fb = .ok ([], .arr []) ∧
    flatten_city_json pt (.obj kvs) fb = .ok ([], .obj kvs) ∧
    flatten_city_json pt (.str s) fb = .error "AttributeError" ∧
    transform_all pt ((JVal.str s, fb) :: rest) = .error "AttributeError" := by
  refine ⟨rfl, ?_, rfl, rfl⟩
  show flattenObj pt (.obj kvs) fb = _
  simp only [flattenObj]
  rw [hno]

/-- C5 witness: the amended behaviour at concrete inputs. -/
theorem c5_malformed_aborts_run_witness :
    flatten_city_json noParse (.arr []) "x" = .ok ([], .arr []) ∧
    flatten_city_json noParse (.obj []) "x" = .ok ([], .obj []) ∧
    flatten_city_json noParse (.str "oops") "x" = .error "AttributeError" ∧
    transform_all noParse [(JVal.str "oops", "x")] = .error "AttributeError" :=
  c5_malformed_aborts_run noParse "x" "oops" [] [] rfl

/-- C4 counterexample: with all three attempts failing, the loop performs
THREE sleeps [1, 2, 4] — one after every failed attempt, the final attempt
included — whereas the claim allows at most `MAX_RETRIES - 1 = 2` sleeps. -/
theorem c4_counterexample :
    fetch_city "Delhi" "T" 3 (fun _ => .err "timeout") =
      ⟨{ city := "Delhi", success := false, raw_path := none, error := some "timeout" },
       [1, 2, 4], 3⟩ ∧
    ¬ (([1, 2, 4] : List ℕ).length ≤ 3 - 1) :=
  ⟨by decide, by decide⟩

/-- C4 (amended): at most `MAX_RETRIES` attempts are made, and when every
attempt fails the result is the failure dictionary with the LAST error
message, with sleeps `2^(k-1)` after EVERY failed attempt `k` — including
the final one (the loop body sleeps unconditionally after a failure). -/
theorem c4_retry_backoff (city ts : String) (n : ℕ) (outcomes : ℕ → AttemptOutcome)
    (msgs : ℕ → String) :
    (fetch_city city ts n outcomes).attempts ≤ n ∧
    (1 ≤ n → (∀ j, 1 ≤ j → j ≤ n → outcomes j = .err (msgs j)) →
      fetch_city city ts n outcomes =
        ⟨{ city := city, success := false, raw_path := none, error := some (msgs n) },
         (List.range n).map (2 ^ ·), n⟩) := by
  constructor
  · exact fetchCityGo_attempts_le city ts outcomes n 0 none
  · intro hn hall
    have hmain := fetchCityGo_all_fail city ts outcomes msgs n 0 none hn
      (fun j hj1 hj2 => hall j (by omega) (by omega))
    show fetchCityGo city ts outcomes n 0 none = _
    rw [hmain, List.range_eq_range']
    simp

/-- C4 witness: the amended behaviour at `MAX_RETRIES = 3` with every
attempt failing with "boom". -/
theorem c4_retry_backoff_witness :
    (fetch_city "Delhi" "T" 3 (fun _ => .err "boom")).attempts ≤ 3 ∧
    fetch_city "Delhi" "T" 3 (fun _ => .err "boom") =
      ⟨{ city := "Delhi", success := false, raw_path := none, error := some "boom" },
       (List.range 3).map (2 ^ ·), 3⟩ := by
  have h := c4_retry_backoff "Delhi" "T" 3 (fun _ => .err "boom") (fun _ => "boom")
  exact ⟨h.1, h.2 (by norm_num) (fun j hj1 hj2 => rfl)⟩

/-- C6 counterexample: a failure of `json.dump` during persistence still
yields a success result without any retry, BUT it changes the returned
dictionary (the `raw_path` falls back to the `.txt` file), and the result
carries only the path, never the payload itself — refuting "does not change
the returned result". -/
theorem c6_counterexample :
    (fetch_city "Delhi" "T" 3 (fun _ => .ok JVal.null true)).result.success = true ∧
    (fetch_city "Delhi" "T" 3 (fun _ => .ok JVal.null false)).result.success = true ∧
    (fetch_city "Delhi" "T" 3 (fun _ => .ok JVal.null true)).result ≠
      (fetch_city "Delhi" "T" 3 (fun _ => .ok JVal.null false)).result := by
  have key : ∀ b : String, b ++ ".json" ≠ b ++ ".txt" := by
    intro b hcontra
    have hlen := congrArg String.length hcontra
    rw [String.length_append, String.length_append] at hlen
    simp only [show (".json" : String).length = 5 from rfl,
      show (".txt" : String).length = 4 from rfl] at hlen
    omega
  refine ⟨rfl, rfl, ?_⟩
  intro hcontra
  have hr := congrArg FetchResult.raw_path hcontra
  injection hr with hr
  exact key (("Delhi".replace " " "_").toLower ++ "_raw_" ++ "T") hr

/-- C6 (amended): when the first attempt's request and body parsing
succeed, the fetch returns a success result carrying the saved file's path
(not the payload), with no retry and no sleep, whether or not the
`json.dump` persistence succeeds — a dump failure only changes the saved
path to the `.txt` fallback. -/
theorem c6_save_failure_not_retried (city ts : String) (n : ℕ)
    (outcomes : ℕ → AttemptOutcome) (p : JVal) (dumpOk : Bool)
    (hn : 1 ≤ n) (h1 : outcomes 1 = .ok p dumpOk) :
    fetch_city city ts n outcomes =
      ⟨{ city := city, success := true,
         raw_path := some (save_raw p city ts dumpOk), error := none }, [], 1⟩ := by
  obtain ⟨m, rfl⟩ : ∃ m, n = m + 1 := ⟨n - 1, by omega⟩
  show fetchCityGo city ts outcomes (m + 1) 0 none = _
  simp only [fetchCityGo, Nat.zero_add, h1]

/-- C6 witness: the amended behaviour when persistence fails on the first
(successful) attempt. -/
theorem c6_save_failure_not_retried_witness :
    fetch_city "Delhi" "T" 3 (fun _ => .ok JVal.null false) =
      ⟨{ city := "Delhi", success := true,
         raw_path := some (save_raw JVal.null "Delhi" "T" false), error := none }, [], 1⟩ :=
  c6_save_failure_not_retried "Delhi" "T" 3 (fun _ => .ok JVal.null false) JVal.null false
    (by norm_num) rfl

/-- C7 counterexample: 18 records with 18 distinct flags give 18 buckets
of 100/18 = 5.5555..%, each rounding UP to 5.56%; the bucket percentages
sum to 100.08, which deviates from 100 by 0.08 > 0.05 — refuting the
claimed unconditional 0.05 bound. -/
theorem c7_counterexample :
    recsC7 ≠ [] ∧ ¬ (|sumPercent recsC7 - 100| ≤ 1 / 20) := by
  constructor
  · simp [recsC7]
  · have h1 : sumPercent recsC7 =
        (List.replicate 18 (round2 (((1 : ℕ) : ℚ) / ((18 : ℕ) : ℚ) * 100))).sum := rfl
    have h2 : round2 (((1 : ℕ) : ℚ) / ((18 : ℕ) : ℚ) * 100) = 139 / 25 := by
      have harg : (((1 : ℕ) : ℚ) / ((18 : ℕ) : ℚ) * 100) = 50 / 9 := by
        push_cast
        norm_num
      rw [harg]
      have hfl : ⌊(50 : ℚ) / 9 * 100⌋ = 555 := by
        rw [Int.floor_eq_iff]
        norm_num
      unfold round2
      rw [hfl]
      norm_num
    rw [h1, h2, List.sum_replicate]
    simp only [nsmul_eq_mul]
    rw [show ((18 : ℕ) : ℚ) * (139 / 25) - 100 = 2 / 25 by push_cast; norm_num]
    rw [abs_of_nonneg (by norm_num)]
    norm_num

/-- C7 (amended): for every non-empty collection, every observed flag
(with absent flags under "Unknown") gets a bucket; each bucket's value is
`round2((count / total) * 100)` and lies in [0, 100]; and the bucket sum
deviates from 100 by at most `B * 0.005` where `B` is the number of
buckets — hence within 0.05 when there are at most 10 buckets (Transformer
output produces at most 4), but NOT for arbitrarily many buckets. -/
theorem c7_risk_percentage_bounds (records : List ARecord) (hne : records ≠ []) :
    (∀ f, f ∈ riskFlags records → ∃ p, (f, p) ∈ risk_percentage records) ∧
    (∀ fp ∈ risk_percentage records,
       fp.2 = round2 ((((riskFlags records).count fp.1 : ℚ) / (records.length : ℚ)) * 100) ∧
       0 ≤ fp.2 ∧ fp.2 ≤ 100) ∧
    |sumPercent records - 100| ≤ ((risk_percentage records).length : ℚ) * (1 / 200) := by
  have hn0 : 0 < records.length := List.length_pos.mpr hne
  have hnq : (0 : ℚ) < (records.length : ℚ) := by exact_mod_cast hn0
  refine ⟨?_, ?_, ?_⟩
  · intro f hf
    exact ⟨round2 ((((riskFlags records).count f : ℚ) / (records.length : ℚ)) * 100),
      List.mem_map.mpr ⟨f, List.mem_dedup.mpr hf, rfl⟩⟩
  · intro fp hfp
    unfold risk_percentage at hfp
    rw [List.mem_map] at hfp
    obtain ⟨f, hfd, hfe⟩ := hfp
    subst hfe
    refine ⟨rfl, ?_⟩
    have hcle : (riskFlags records).count f ≤ (riskFlags records).length :=
      List.count_le_length _ _
    have hlen : (riskFlags records).length = records.length := List.length_map _ _
    have hc : ((riskFlags records).count f : ℚ) ≤ (records.length : ℚ) := by
      exact_mod_cast hlen ▸ hcle
    have hx0 : 0 ≤ (((riskFlags records).count f : ℚ) / (records.length : ℚ)) * 100 := by
      positivity
    have hx1 : (((riskFlags records).count f : ℚ) / (records.length : ℚ)) * 100 ≤ 100 := by
      rw [div_mul_eq_mul_div, div_le_iff₀ hnq]
      nlinarith
    exact round2_mem_Icc hx0 hx1
  · have hmap : (risk_percentage records).map Prod.snd
        = ((riskFlags records).dedup.map
            (fun f => (((riskFlags records).count f : ℚ) / (records.length : ℚ)) * 100)).map
              round2 := by
      unfold risk_percentage
      rw [List.map_map, List.map_map]
      rfl
    have hlen2 : ((risk_percentage records).length : ℚ)
        = (((riskFlags records).dedup.map
            (fun f => (((riskFlags records).count f : ℚ) / (records.length : ℚ)) * 100)).length :
              ℚ) := by
      unfold risk_percentage
      rw [List.length_map, List.length_map]
    unfold sumPercent
    rw [hmap, hlen2]
    have hbound := abs_sum_round2 ((riskFlags records).dedup.map
      (fun f => (((riskFlags records).count f : ℚ) / (records.length : ℚ)) * 100))
    rwa [sum_exact_percent records hne] at hbound

/-- C7 witness: the amended bound at a concrete two-record collection
(one "Low Risk" flag, one absent flag). -/
theorem c7_risk_percentage_bounds_witness :
    |sumPercent recsW - 100| ≤ ((risk_percentage recsW).length : ℚ) * (1 / 200) :=
  (c7_risk_percentage_bounds recsW (by simp [recsW])).2.2

/-- C8: the selected worst hour is an observed hour-of-day group (0-23,
derived from the timestamp, rows with missing timestamp or missing PM2.5
excluded) whose mean PM2.5 is maximal over all hour groups; and on the
spec's Scenario C (PM2.5 [10, 20, 30] at hours [5, 5, 6]) the selected
hour is 6 with mean 30. -/
theorem c8_worst_hour_argmax :
    (∀ (records : List ARecord) (h : ℕ) (v : ℚ),
       worst_hour_by_avg_pm2_5 records = some (h, v) →
       (h, v) ∈ hourMeans records ∧ h < 24 ∧ ∀ p ∈ hourMeans records, p.2 ≤ v) ∧
    worst_hour_by_avg_pm2_5 scenarioC = some (6, 30) := by
  constructor
  · intro records h v hw
    unfold worst_hour_by_avg_pm2_5 at hw
    split at hw
    · exact Option.noConfusion hw
    · next m ms heq =>
        injection hw with hw
        obtain ⟨hmem, hmax⟩ := foldl_pick_max m ms
        rw [hw] at hmem hmax
        refine ⟨?_, ?_, ?_⟩
        · rw [heq]
          exact hmem
        · exact hourMeans_fst_lt_24 records (h, v) (by rw [heq]; exact hmem)
        · intro p hp
          rw [heq] at hp
          exact hmax p hp
  · have hm : hourMeans scenarioC = [(5, 15), (6, 30)] := by
      have h0 : hourMeans scenarioC =
          [(5, (10 + (20 + 0) : ℚ) / 2), (6, ((30 + 0 : ℚ)) / 1)] := rfl
      rw [h0]
      norm_num
    rw [worst_hour_by_avg_pm2_5, hm]
    norm_num

/-- C8 witness: at Scenario C the theorem yields that (6, 30) is an
observed hour group with 6 < 24 and maximal mean. -/
theorem c8_worst_hour_argmax_witness :
    (6, (30 : ℚ)) ∈ hourMeans scenarioC ∧ 6 < 24 := by
  have h := c8_worst_hour_argmax
  obtain ⟨hmem, hlt, _⟩ := h.1 scenarioC 6 30 h.2
  exact ⟨hmem, hlt⟩

end AirQuality
